import Mathlib

/-!
Verification development for the `gpgpu-rs` image-interop and descriptor-set
layer (`src/lib.rs`, `src/features/integrate_image.rs`).

Bytes are modelled as `Nat`, a subpixel as the list of its bytes, a host
`image::ImageBuffer` as its extent plus its subpixel container, and a
`GpuImage` as its extent, device pixel format and device byte contents.
Operations whose bodies live outside the two embedded source files
(`GpuImage::new/read/write`, the `DescriptorSet` bind methods, the polling
contract) are modelled from the specification and marked as such.
-/

namespace Gpgpu

/-- The device pixel formats of the `pixels` module that appear in the
interop mapping table of `integrate_image.rs` (lines 42-52). -/
inductive GpgpuPixelFormat where
  | Rgba8Uint
  | Rgba8UintNorm
  | Rgba8Sint
  | Rgba8SintNorm
  | Luma8
  | Luma8Norm
deriving DecidableEq

/-- The external `image`-crate pixel types appearing in the mapping table:
`Rgba<u8>`, `Rgba<i8>`, `Luma<u8>`. -/
inductive ImgPixelType where
  | RgbaU8
  | RgbaI8
  | LumaU8
deriving DecidableEq

/-- `image_to_gpgpu_impl`: the `ImageToGpgpu::GpgpuPixel` associated type
(raw device format) of each external pixel type. -/
def imageToGpgpuPixel : ImgPixelType → GpgpuPixelFormat
  | .RgbaU8 => .Rgba8Uint
  | .RgbaI8 => .Rgba8Sint
  | .LumaU8 => .Luma8

/-- `image_to_gpgpu_impl`: the `ImageToGpgpu::NormGpgpuPixel` associated type
(normalised device format) of each external pixel type. -/
def imageToGpgpuNormPixel : ImgPixelType → GpgpuPixelFormat
  | .RgbaU8 => .Rgba8UintNorm
  | .RgbaI8 => .Rgba8SintNorm
  | .LumaU8 => .Luma8Norm

/-- `gpgpu_to_image_impl`: the `GpgpuToImage::ImgPixel` associated type of
each device pixel format. -/
def gpgpuToImagePixel : GpgpuPixelFormat → ImgPixelType
  | .Rgba8Uint => .RgbaU8
  | .Rgba8UintNorm => .RgbaU8
  | .Rgba8Sint => .RgbaI8
  | .Rgba8SintNorm => .RgbaI8
  | .Luma8 => .LumaU8
  | .Luma8Norm => .LumaU8

/-- Channel count of each external pixel type: `Rgba` has four channels,
`Luma` one (from the `image` crate's `Pixel` impls, an external collaborator). -/
def ImgPixelType.channels : ImgPixelType → Nat
  | .RgbaU8 => 4
  | .RgbaI8 => 4
  | .LumaU8 => 1

/-- Subpixel byte size of each external pixel type: all three table entries
use 8-bit subpixels (`u8` or `i8`), so `size_of::<P::Subpixel>() = 1`. -/
def ImgPixelType.subpixelSize : ImgPixelType → Nat
  | .RgbaU8 => 1
  | .RgbaI8 => 1
  | .LumaU8 => 1

/-- Modelled from the spec: the `PixelInfo` byte size of each device pixel
format (the `pixels` module is outside the embedded sources; the spec fixes
the 2D byte layout as `width*height*pixel_size` with 8-bit channels, so the
four-channel formats take 4 bytes per pixel and the one-channel formats 1). -/
def GpgpuPixelFormat.byteSize : GpgpuPixelFormat → Nat
  | .Rgba8Uint => 4
  | .Rgba8UintNorm => 4
  | .Rgba8Sint => 4
  | .Rgba8SintNorm => 4
  | .Luma8 => 1
  | .Luma8Norm => 1

/-- `primitive_slice_to_bytes`: reinterprets a slice of primitives as its
underlying bytes (`primitive.len() * size_of::<P>()` of them, in order).
With a primitive modelled as its byte list this is flattening. -/
def primitive_slice_to_bytes (primitive : List (List Nat)) : List Nat :=
  primitive.flatten

/-- `bytes_to_primitive_vec`: reinterprets `bytes` as
`bytes.len() / size_of::<P::Subpixel>()` primitives (`s` is the subpixel
byte size); primitive `i` is made of bytes `[i*s, i*s + s)`. Any remainder
bytes beyond the last whole primitive are dropped, and no error is produced
(the function is total). -/
def bytes_to_primitive_vec (s : Nat) (bytes : List Nat) : List (List Nat) :=
  (List.range (bytes.length / s)).map fun i => (bytes.drop (i * s)).take s

/-- A host-side `image::ImageBuffer`: its dimensions and its subpixel
container (each subpixel carried as its bytes). -/
structure ImageBufferM where
  width : Nat
  height : Nat
  container : List (List Nat)
deriving DecidableEq

/-- Modelled from the `image` crate (external collaborator):
`ImageBuffer::from_vec`/`from_raw` returns `some` exactly when the container
holds at least `width * height * channels` subpixels. -/
def imageBuffer_from_vec (width height channels : Nat)
    (container : List (List Nat)) : Option ImageBufferM :=
  if width * height * channels ≤ container.length then
    some ⟨width, height, container⟩
  else
    none

/-- A `GpuImage`: extent, device pixel format and device byte contents
(the `wgpu` texture is modelled by the bytes it stores). -/
structure GpuImageState where
  width : Nat
  height : Nat
  pixelFormat : GpgpuPixelFormat
  data : List Nat
deriving DecidableEq

/-- Modelled from the spec: `GpuImage::new` allocates a zero-filled image of
byte size `width * height * pixel_size`. -/
def GpuImageState.new (width height : Nat) (fmt : GpgpuPixelFormat) :
    GpuImageState :=
  ⟨width, height, fmt, List.replicate (width * height * fmt.byteSize) 0⟩

/-- Modelled from the spec: `GpuImage::read` returns the device byte
contents of the image. -/
def GpuImageState.read (img : GpuImageState) : List Nat :=
  img.data

/-- Modelled from the spec: `GpuImage::write` validates that the supplied
byte buffer exactly matches the image's byte size
(`width * height * pixel_size`); a mismatch is signalled on the transfer
error channel and leaves the image unchanged. -/
def GpuImageState.write (img : GpuImageState) (bytes : List Nat) :
    Except String GpuImageState :=
  if bytes.length = img.width * img.height * img.pixelFormat.byteSize then
    Except.ok { img with data := bytes }
  else
    Except.error "Transfer size mismatch"

/-- The reconstruction path of `read_to_image_buffer` applied to an
arbitrary read-back byte payload: reinterpret the bytes as subpixels of the
corresponding external pixel type, then build the `ImageBuffer` via
`from_vec`, turning `none` into the error `"Buffer is too small!"`. -/
def reconstruct_image_buffer (width height : Nat) (fmt : GpgpuPixelFormat)
    (bytes : List Nat) : Except String ImageBufferM :=
  let p := gpgpuToImagePixel fmt
  let container := bytes_to_primitive_vec p.subpixelSize bytes
  match imageBuffer_from_vec width height p.channels container with
  | some img => Except.ok img
  | none => Except.error "Buffer is too small!"

/-- `GpuImage::read_to_image_buffer` (integrate_image.rs lines 98-114):
blocking read of the device bytes followed by the reconstruction path. -/
def GpuImageState.read_to_image_buffer (img : GpuImageState) :
    Except String ImageBufferM :=
  reconstruct_image_buffer img.width img.height img.pixelFormat img.read

/-- `GpuImage::write_from_image` (integrate_image.rs lines 139-148): turns
the host image into bytes and calls `write`. The Rust function returns `()`:
whatever the inner transfer signals is not surfaced to the caller, so the
model returns only the resulting state (unchanged when the inner write
rejects the payload). -/
def GpuImageState.write_from_image (img : GpuImageState)
    (host : ImageBufferM) : GpuImageState :=
  match img.write (primitive_slice_to_bytes host.container) with
  | Except.ok next => next
  | Except.error _ => img

/-- `GpuImage::from_image_crate` (integrate_image.rs lines 59-73): allocate
a `GpuImage` of the host image's dimensions with the raw device format of
the host pixel type, then synchronously write the host bytes into it
(the result of the inner write is not surfaced). -/
def from_image_crate (p : ImgPixelType) (host : ImageBufferM) :
    GpuImageState :=
  let out := GpuImageState.new host.width host.height (imageToGpgpuPixel p)
  match out.write (primitive_slice_to_bytes host.container) with
  | Except.ok next => next
  | Except.error _ => out

/-- `GpuImage::from_image_crate_normalised` (integrate_image.rs lines
76-90): as `from_image_crate` with the normalised device format. -/
def from_image_crate_normalised (p : ImgPixelType) (host : ImageBufferM) :
    GpuImageState :=
  let out :=
    GpuImageState.new host.width host.height (imageToGpgpuNormPixel p)
  match out.write (primitive_slice_to_bytes host.container) with
  | Except.ok next => next
  | Except.error _ => out

/-- `GpuBufferUsage` (lib.rs lines 99-113): the access mode of a storage
buffer binding. -/
inductive GpuBufferUsage where
  | ReadOnly
  | ReadWrite
deriving DecidableEq

/-- `ImageUsage` (lib.rs lines 134-151): the usage type of an image binding.
The source enumeration has the single variant `WriteOnly` (the read-write
variant is commented out pending an optional adapter feature). -/
inductive ImageUsage where
  | WriteOnly
deriving DecidableEq

/-- The kind of one descriptor-set binding, with its access mode. -/
inductive BindingKind where
  | StorageBuffer (access : GpuBufferUsage)
  | UniformBuffer
  | Image (usage : ImageUsage)
deriving DecidableEq

/-- One `wgpu::BindGroupLayoutEntry` (binding index plus binding type). -/
structure LayoutEntry where
  binding : Nat
  kind : BindingKind
deriving DecidableEq

/-- One `wgpu::BindGroupEntry` (binding index plus bound resource kind). -/
structure BindEntry where
  binding : Nat
  kind : BindingKind
deriving DecidableEq

/-- `DescriptorSet` (lib.rs lines 164-169): a layout-entry list and a
parallel binding list. -/
structure DescriptorSet where
  set_layout : List LayoutEntry
  binds : List BindEntry
deriving DecidableEq

/-- `DescriptorSet::default()`: both lists empty. -/
def DescriptorSet.default : DescriptorSet :=
  ⟨[], []⟩

/-- Modelled from the spec: each `bind_*` call appends one layout entry and
one binding entry at the next available index (the current entry count);
the binding index is assigned by position, 0-based. -/
def DescriptorSet.addBinding (ds : DescriptorSet) (kind : BindingKind) :
    DescriptorSet :=
  let idx := ds.set_layout.length
  ⟨ds.set_layout ++ [⟨idx, kind⟩], ds.binds ++ [⟨idx, kind⟩]⟩

/-- Modelled from the spec: `bind_storage_buffer` with the given access
mode. -/
def bind_storage_buffer (ds : DescriptorSet) (access : GpuBufferUsage) :
    DescriptorSet :=
  ds.addBinding (BindingKind.StorageBuffer access)

/-- Modelled from the spec: `bind_uniform_buffer` (always read-only). -/
def bind_uniform_buffer (ds : DescriptorSet) : DescriptorSet :=
  ds.addBinding BindingKind.UniformBuffer

/-- Modelled from the spec: `bind_image`, whose access mode is fixed to
write-only in the base configuration. -/
def bind_image (ds : DescriptorSet) : DescriptorSet :=
  ds.addBinding (BindingKind.Image ImageUsage.WriteOnly)

/-- A descriptor set built by appending the given binding kinds, in order,
to the default (empty) set. -/
def buildSet (ks : List BindingKind) : DescriptorSet :=
  ks.foldl DescriptorSet.addBinding DescriptorSet.default

/-- The layout entries produced by appending `kinds` starting at index
`start`. -/
def expectedLayout : List BindingKind → Nat → List LayoutEntry
  | [], _ => []
  | k :: ks, start => ⟨start, k⟩ :: expectedLayout ks (start + 1)

/-- The binding entries produced by appending `kinds` starting at index
`start`. -/
def expectedBinds : List BindingKind → Nat → List BindEntry
  | [], _ => []
  | k :: ks, start => ⟨start, k⟩ :: expectedBinds ks (start + 1)

/-- Modelled from the spec: the completion state of a deferred (async)
read or write. -/
inductive DeferredState where
  | Pending
  | Completed
deriving DecidableEq

/-- Modelled from the spec: a host-side event relevant to a deferred
operation — either an invocation of the Device Context's poll entry point,
or any other host activity. -/
inductive HostEvent where
  | Poll
  | Other
deriving DecidableEq

/-- Modelled from the spec: a deferred operation advances only when the
Device Context is polled; a poll lets the device-side completion callback
fire (modelled as completing the operation), while any other host activity
leaves the state untouched. -/
def stepDeferred (s : DeferredState) (e : HostEvent) : DeferredState :=
  match s, e with
  | DeferredState.Pending, HostEvent.Poll => DeferredState.Completed
  | s, _ => s

/-- The state of a freshly issued deferred operation after the given host
events have run. -/
def runDeferred (events : List HostEvent) : DeferredState :=
  events.foldl stepDeferred DeferredState.Pending

theorem btpv_length (s : Nat) (bytes : List Nat) :
    (bytes_to_primitive_vec s bytes).length = bytes.length / s := by
  simp [bytes_to_primitive_vec]

theorem btpv_flatten_aux (s : Nat) (bytes : List Nat) :
    ∀ n, ((List.range n).map fun i => (bytes.drop (i * s)).take s).flatten
      = bytes.take (n * s) ∨ bytes.length < n * s := by
  intro n
  induction n with
  | zero => simp
  | succ n ih =>
    rcases ih with ih | ih
    · rcases Nat.lt_or_ge bytes.length (Nat.succ n * s) with hlt | hge
      · exact Or.inr hlt
      · left
        rw [List.range_succ, List.map_append, List.flatten_append, ih]
        simp only [List.map_cons, List.map_nil, List.flatten_cons,
          List.flatten_nil, List.append_nil]
        rw [Nat.succ_mul, List.take_add]
    · exact Or.inr (lt_of_lt_of_le ih (Nat.mul_le_mul_right s (Nat.le_succ n)))

theorem btpv_flatten (s : Nat) (bytes : List Nat) :
    (bytes_to_primitive_vec s bytes).flatten
      = bytes.take (s * (bytes.length / s)) := by
  rcases btpv_flatten_aux s bytes (bytes.length / s) with h | h
  · unfold bytes_to_primitive_vec
    rw [Nat.mul_comm s]
    exact h
  · exact absurd (Nat.div_mul_le_self bytes.length s) (Nat.not_le_of_lt h)

theorem flatten_length_uniform (s : Nat) :
    ∀ l : List (List Nat), (∀ c ∈ l, c.length = s) →
      l.flatten.length = l.length * s := by
  intro l
  induction l with
  | nil => intro _; simp
  | cons a t ih =>
    intro h
    have ha : a.length = s := h a (by simp)
    have ht : ∀ c ∈ t, c.length = s := fun c hc => h c (by simp [hc])
    simp only [List.flatten_cons, List.length_append, List.length_cons,
      ih ht, ha, Nat.succ_mul]
    ring

theorem btpv_append (s : Nat) (hs : 0 < s) (a rest : List Nat)
    (ha : a.length = s) :
    bytes_to_primitive_vec s (a ++ rest)
      = a :: bytes_to_primitive_vec s rest := by
  have hlen : (a ++ rest).length = rest.length + s := by
    simp [ha, Nat.add_comm]
  unfold bytes_to_primitive_vec
  rw [hlen, Nat.add_div_right _ hs, List.range_succ_eq_map, List.map_cons,
    List.map_map]
  congr 1
  · simp only [Nat.zero_mul, List.drop_zero]
    rw [← ha, List.take_left]
  · apply List.map_congr_left
    intro i _
    simp only [Function.comp_apply]
    have h2 : Nat.succ i * s = a.length + i * s := by
      rw [ha, Nat.succ_mul, Nat.add_comm]
    rw [h2, ← List.drop_drop, List.drop_left]

theorem btpv_of_uniform (s : Nat) (hs : 0 < s) :
    ∀ l : List (List Nat), (∀ c ∈ l, c.length = s) →
      bytes_to_primitive_vec s l.flatten = l := by
  intro l
  induction l with
  | nil => intro _; simp [bytes_to_primitive_vec]
  | cons a t ih =>
    intro h
    rw [List.flatten_cons, btpv_append s hs a t.flatten (h a (by simp)),
      ih (fun c hc => h c (by simp [hc]))]

theorem subpixelSize_eq_one (p : ImgPixelType) : p.subpixelSize = 1 := by
  cases p <;> rfl

theorem byteSize_eq_channels (fmt : GpgpuPixelFormat) :
    fmt.byteSize = (gpgpuToImagePixel fmt).channels := by
  cases fmt <;> rfl

theorem imageToGpgpu_byteSize (p : ImgPixelType) :
    (imageToGpgpuPixel p).byteSize = p.channels ∧
    (imageToGpgpuNormPixel p).byteSize = p.channels := by
  cases p <;> exact ⟨rfl, rfl⟩

theorem expectedLayout_length (ks : List BindingKind) :
    ∀ start, (expectedLayout ks start).length = ks.length := by
  induction ks with
  | nil => intro _; rfl
  | cons k t ih => intro start; simp [expectedLayout, ih]

theorem expectedBinds_length (ks : List BindingKind) :
    ∀ start, (expectedBinds ks start).length = ks.length := by
  induction ks with
  | nil => intro _; rfl
  | cons k t ih => intro start; simp [expectedBinds, ih]

theorem expectedLayout_get (ks : List BindingKind) :
    ∀ start i, (expectedLayout ks start)[i]?
      = ks[i]?.map fun k => (⟨start + i, k⟩ : LayoutEntry) := by
  induction ks with
  | nil => intro start i; simp [expectedLayout]
  | cons k t ih =>
    intro start i
    cases i with
    | zero => simp [expectedLayout]
    | succ i =>
      have harith : start + 1 + i = start + (i + 1) := by omega
      simp only [expectedLayout, List.getElem?_cons_succ, ih (start + 1) i,
        harith]

theorem expectedBinds_get (ks : List BindingKind) :
    ∀ start i, (expectedBinds ks start)[i]?
      = ks[i]?.map fun k => (⟨start + i, k⟩ : BindEntry) := by
  induction ks with
  | nil => intro start i; simp [expectedBinds]
  | cons k t ih =>
    intro start i
    cases i with
    | zero => simp [expectedBinds]
    | succ i =>
      have harith : start + 1 + i = start + (i + 1) := by omega
      simp only [expectedBinds, List.getElem?_cons_succ, ih (start + 1) i,
        harith]

theorem foldl_addBinding (ks : List BindingKind) :
    ∀ ds : DescriptorSet,
      (ks.foldl DescriptorSet.addBinding ds).set_layout
        = ds.set_layout ++ expectedLayout ks ds.set_layout.length ∧
      (ks.foldl DescriptorSet.addBinding ds).binds
        = ds.binds ++ expectedBinds ks ds.set_layout.length := by
  induction ks with
  | nil => intro ds; simp [expectedLayout, expectedBinds]
  | cons k t ih =>
    intro ds
    have h := ih (ds.addBinding k)
    have hL : (ds.addBinding k).set_layout
        = ds.set_layout ++ [⟨ds.set_layout.length, k⟩] := rfl
    have hB : (ds.addBinding k).binds
        = ds.binds ++ [⟨ds.set_layout.length, k⟩] := rfl
    have hlen : (ds.addBinding k).set_layout.length
        = ds.set_layout.length + 1 := by
      rw [hL]; simp
    constructor
    · rw [List.foldl_cons, h.1, hlen, hL, List.append_assoc]
      rfl
    · rw [List.foldl_cons, h.2, hlen, hB, List.append_assoc]
      rfl

theorem reconstruct_ok (w h : Nat) (fmt : GpgpuPixelFormat)
    (bytes : List Nat)
    (hge : w * h * (gpgpuToImagePixel fmt).channels
      ≤ (bytes_to_primitive_vec (gpgpuToImagePixel fmt).subpixelSize
          bytes).length) :
    reconstruct_image_buffer w h fmt bytes
      = Except.ok ⟨w, h,
          bytes_to_primitive_vec (gpgpuToImagePixel fmt).subpixelSize
            bytes⟩ := by
  simp only [reconstruct_image_buffer, imageBuffer_from_vec]
  rw [if_pos hge]

theorem reconstruct_error (w h : Nat) (fmt : GpgpuPixelFormat)
    (bytes : List Nat)
    (hlt : (bytes_to_primitive_vec (gpgpuToImagePixel fmt).subpixelSize
          bytes).length < w * h * (gpgpuToImagePixel fmt).channels) :
    reconstruct_image_buffer w h fmt bytes
      = Except.error "Buffer is too small!" := by
  simp only [reconstruct_image_buffer, imageBuffer_from_vec]
  rw [if_neg (Nat.not_le_of_lt hlt)]

/-- C1: for every GpuImage of extent (w,h) ≥ (1,1) and every host image of
the matching extent and pixel type (well-formed container: one 1-byte
subpixel per channel, `w*h*channels` of them), writing the host image via
`write_from_image` and then reading via `read_to_image_buffer` returns the
written image back — a byte-identical payload of length
`w*h*pixel_size` — with no kernel executing in between. -/
theorem gpu_image_write_read_roundtrip (img : GpuImageState)
    (host : ImageBufferM)
    (hw : host.width = img.width) (hh : host.height = img.height)
    (hw1 : 1 ≤ img.width) (hh1 : 1 ≤ img.height)
    (hsub : ∀ c ∈ host.container,
      c.length = (gpgpuToImagePixel img.pixelFormat).subpixelSize)
    (hlen : host.container.length
      = img.width * img.height
          * (gpgpuToImagePixel img.pixelFormat).channels) :
    (img.write_from_image host).read_to_image_buffer = Except.ok host ∧
    (primitive_slice_to_bytes host.container).length
      = img.width * img.height * img.pixelFormat.byteSize := by
  have hs1 : (gpgpuToImagePixel img.pixelFormat).subpixelSize = 1 :=
    subpixelSize_eq_one _
  have hflat : (primitive_slice_to_bytes host.container).length
      = host.container.length := by
    have h2 := flatten_length_uniform
      (gpgpuToImagePixel img.pixelFormat).subpixelSize host.container hsub
    rw [hs1, Nat.mul_one] at h2
    exact h2
  have hbytes : (primitive_slice_to_bytes host.container).length
      = img.width * img.height * img.pixelFormat.byteSize := by
    rw [hflat, hlen, byteSize_eq_channels]
  have hwrite : img.write (primitive_slice_to_bytes host.container)
      = Except.ok ⟨img.width, img.height, img.pixelFormat,
          primitive_slice_to_bytes host.container⟩ := by
    unfold GpuImageState.write
    rw [if_pos hbytes]
  have hstate : img.write_from_image host
      = ⟨img.width, img.height, img.pixelFormat,
          primitive_slice_to_bytes host.container⟩ := by
    unfold GpuImageState.write_from_image
    rw [hwrite]
  have hinv : bytes_to_primitive_vec
      (gpgpuToImagePixel img.pixelFormat).subpixelSize
      (primitive_slice_to_bytes host.container) = host.container := by
    rw [hs1]
    exact btpv_of_uniform 1 Nat.one_pos host.container
      (fun c hc => by rw [hsub c hc, hs1])
  refine ⟨?_, hbytes⟩
  rw [hstate]
  have hread : (⟨img.width, img.height, img.pixelFormat,
      primitive_slice_to_bytes host.container⟩ :
        GpuImageState).read_to_image_buffer
      = reconstruct_image_buffer img.width img.height img.pixelFormat
          (primitive_slice_to_bytes host.container) := rfl
  rw [hread, reconstruct_ok img.width img.height img.pixelFormat
    (primitive_slice_to_bytes host.container) (by rw [hinv, hlen]), hinv]
  have hhost : (⟨img.width, img.height, host.container⟩ : ImageBufferM)
      = host := by
    rw [← hw, ← hh]
  rw [hhost]

/-- C1 witness: a concrete 1×1 Luma8 round trip. -/
theorem gpu_image_write_read_roundtrip_witness :
    ((GpuImageState.new 1 1 GpgpuPixelFormat.Luma8).write_from_image
        ⟨1, 1, [[7]]⟩).read_to_image_buffer
      = Except.ok ⟨1, 1, [[7]]⟩ ∧
    (primitive_slice_to_bytes [[7]]).length
      = 1 * 1 * GpgpuPixelFormat.Luma8.byteSize :=
  gpu_image_write_read_roundtrip
    (GpuImageState.new 1 1 GpgpuPixelFormat.Luma8) ⟨1, 1, [[7]]⟩
    rfl rfl (by decide) (by decide) (by decide) (by decide)

/-- C2 counterexample: a 6-byte payload for a 1×1 Rgba8Uint image does not
divide into whole 4-byte pixels, yet the reconstruction path returns a
successful ImageBuffer (the excess subpixels are silently kept as surplus,
no error is surfaced). -/
theorem read_nondivisible_payload_no_error :
    6 % GpgpuPixelFormat.Rgba8Uint.byteSize ≠ 0 ∧
    reconstruct_image_buffer 1 1 GpgpuPixelFormat.Rgba8Uint
        [0, 0, 0, 0, 0, 0]
      = Except.ok ⟨1, 1, [[0], [0], [0], [0], [0], [0]]⟩ := by
  constructor
  · decide
  · rfl

/-- C2 amended: a read whose byte payload does not divide into whole
elements does NOT surface an error; the reconstruction path silently
discards the remainder and succeeds whenever at least
`width*height*channels` whole subpixels remain. -/
theorem reconstruct_discards_remainder (w h : Nat)
    (fmt : GpgpuPixelFormat) (bytes : List Nat)
    (hnd : bytes.length % fmt.byteSize ≠ 0)
    (hge : w * h * (gpgpuToImagePixel fmt).channels ≤ bytes.length) :
    reconstruct_image_buffer w h fmt bytes
      = Except.ok ⟨w, h,
          bytes_to_primitive_vec (gpgpuToImagePixel fmt).subpixelSize
            bytes⟩ := by
  have hs1 : (gpgpuToImagePixel fmt).subpixelSize = 1 :=
    subpixelSize_eq_one _
  have hclen : (bytes_to_primitive_vec
      (gpgpuToImagePixel fmt).subpixelSize bytes).length = bytes.length := by
    rw [btpv_length, hs1, Nat.div_one]
  exact reconstruct_ok w h fmt bytes (by rw [hclen]; exact hge)

/-- C2 amended witness: 6 bytes for a 1×1 Rgba8Uint image (6 % 4 ≠ 0, yet
6 ≥ 4 subpixels remain) reconstruct successfully. -/
theorem reconstruct_discards_remainder_witness :
    (6 : Nat) % GpgpuPixelFormat.Rgba8Uint.byteSize ≠ 0 ∧
    reconstruct_image_buffer 1 1 GpgpuPixelFormat.Rgba8Uint
        [1, 2, 3, 4, 5, 6]
      = Except.ok ⟨1, 1, [[1], [2], [3], [4], [5], [6]]⟩ := by
  refine ⟨by decide, ?_⟩
  rw [reconstruct_discards_remainder 1 1 GpgpuPixelFormat.Rgba8Uint
    [1, 2, 3, 4, 5, 6] (by decide) (by decide)]
  rfl

/-- C3 counterexample: writing a 1×1 RGBA host image (4 bytes) into a 2×2
Rgba8Uint GpuImage (16 bytes required): the inner (spec-modelled) transfer
rejects the payload, but `write_from_image` — whose return type carries no
error channel — returns plainly and reports nothing; the device contents
are left untouched. -/
theorem write_from_image_short_payload_no_error :
    ((GpuImageState.new 2 2 GpgpuPixelFormat.Rgba8Uint).write
        (primitive_slice_to_bytes [[1], [2], [3], [4]])).isOk = false ∧
    (GpuImageState.new 2 2 GpgpuPixelFormat.Rgba8Uint).write_from_image
        ⟨1, 1, [[1], [2], [3], [4]]⟩
      = GpuImageState.new 2 2 GpgpuPixelFormat.Rgba8Uint := by
  exact ⟨rfl, rfl⟩

/-- C3 amended: on a byte-size mismatch the (spec-modelled) inner write
signals the transfer error, but `write_from_image` discards that result:
the call surfaces no error to its caller and leaves the image unchanged
(it neither zero-pads nor truncates). -/
theorem write_from_image_mismatch_silent (img : GpuImageState)
    (host : ImageBufferM)
    (hne : (primitive_slice_to_bytes host.container).length
      ≠ img.width * img.height * img.pixelFormat.byteSize) :
    img.write_from_image host = img ∧
    (img.write (primitive_slice_to_bytes host.container)).isOk = false := by
  have hwr : img.write (primitive_slice_to_bytes host.container)
      = Except.error "Transfer size mismatch" := by
    unfold GpuImageState.write
    rw [if_neg hne]
  constructor
  · unfold GpuImageState.write_from_image
    rw [hwr]
  · rw [hwr]
    rfl

/-- C3 amended witness: a concrete mismatched write is a silent no-op. -/
theorem write_from_image_mismatch_silent_witness :
    (GpuImageState.new 2 2 GpgpuPixelFormat.Rgba8Uint).write_from_image
        ⟨1, 1, [[9], [9], [9], [9]]⟩
      = GpuImageState.new 2 2 GpgpuPixelFormat.Rgba8Uint ∧
    ((GpuImageState.new 2 2 GpgpuPixelFormat.Rgba8Uint).write
        (primitive_slice_to_bytes [[9], [9], [9], [9]])).isOk = false :=
  write_from_image_mismatch_silent
    (GpuImageState.new 2 2 GpgpuPixelFormat.Rgba8Uint)
    ⟨1, 1, [[9], [9], [9], [9]]⟩ (by decide)

/-- C4: `from_image_crate` returns a GpuImage whose extent equals the host
image's dimensions and whose device contents equal the host image's bytes,
the copy being performed synchronously as part of construction (the
returned state already holds the bytes); the same holds for
`from_image_crate_normalised` with the normalised device format. -/
theorem from_image_crate_spec (p : ImgPixelType) (host : ImageBufferM)
    (hsub : ∀ c ∈ host.container, c.length = p.subpixelSize)
    (hlen : host.container.length
      = host.width * host.height * p.channels) :
    from_image_crate p host
      = ⟨host.width, host.height, imageToGpgpuPixel p,
          primitive_slice_to_bytes host.container⟩ ∧
    from_image_crate_normalised p host
      = ⟨host.width, host.height, imageToGpgpuNormPixel p,
          primitive_slice_to_bytes host.container⟩ := by
  have hs1 : p.subpixelSize = 1 := subpixelSize_eq_one p
  have hflat : (primitive_slice_to_bytes host.container).length
      = host.container.length := by
    have h2 := flatten_length_uniform p.subpixelSize host.container hsub
    rw [hs1, Nat.mul_one] at h2
    exact h2
  constructor
  · have hcond : (primitive_slice_to_bytes host.container).length
        = host.width * host.height * (imageToGpgpuPixel p).byteSize := by
      rw [hflat, hlen, (imageToGpgpu_byteSize p).1]
    simp only [from_image_crate, GpuImageState.new, GpuImageState.write]
    rw [if_pos hcond]
  · have hcond : (primitive_slice_to_bytes host.container).length
        = host.width * host.height * (imageToGpgpuNormPixel p).byteSize := by
      rw [hflat, hlen, (imageToGpgpu_byteSize p).2]
    simp only [from_image_crate_normalised, GpuImageState.new,
      GpuImageState.write]
    rw [if_pos hcond]

/-- C4 witness: a concrete 1×1 Luma image construction. -/
theorem from_image_crate_spec_witness :
    from_image_crate ImgPixelType.LumaU8 ⟨1, 1, [[9]]⟩
      = ⟨1, 1, GpgpuPixelFormat.Luma8, [9]⟩ ∧
    from_image_crate_normalised ImgPixelType.LumaU8 ⟨1, 1, [[9]]⟩
      = ⟨1, 1, GpgpuPixelFormat.Luma8Norm, [9]⟩ :=
  from_image_crate_spec ImgPixelType.LumaU8 ⟨1, 1, [[9]]⟩
    (by decide) (by decide)

/-- C5: for a Descriptor Set built by appending bindings B0, B1, ..., Bn in
that order (any mix of storage buffer, uniform buffer, image), the
layout-entry list and the binding list have the same length as the appended
sequence and positionally correspond: entry i carries binding index exactly
i (0-based, sequential) and Bi's kind, regardless of binding kind. -/
theorem descriptor_set_binding_order (ks : List BindingKind) :
    (buildSet ks).set_layout.length = ks.length ∧
    (buildSet ks).binds.length = ks.length ∧
    ∀ i, (buildSet ks).set_layout[i]?
        = ks[i]?.map (fun k => (⟨i, k⟩ : LayoutEntry)) ∧
      (buildSet ks).binds[i]?
        = ks[i]?.map (fun k => (⟨i, k⟩ : BindEntry)) := by
  have h := foldl_addBinding ks DescriptorSet.default
  have hL : (buildSet ks).set_layout = expectedLayout ks 0 := by
    simpa [buildSet, DescriptorSet.default] using h.1
  have hB : (buildSet ks).binds = expectedBinds ks 0 := by
    simpa [buildSet, DescriptorSet.default] using h.2
  refine ⟨?_, ?_, ?_⟩
  · rw [hL, expectedLayout_length]
  · rw [hB, expectedBinds_length]
  · intro i
    constructor
    · rw [hL, expectedLayout_get ks 0 i]
      simp
    · rw [hB, expectedBinds_get ks 0 i]
      simp

/-- C6: the interop pixel-format mapping is the fixed compile-time table
Rgba<u8> ↦ (Rgba8Uint, Rgba8UintNorm), Rgba<i8> ↦ (Rgba8Sint,
Rgba8SintNorm), Luma<u8> ↦ (Luma8, Luma8Norm), and the reverse mapping
sends both the raw and the normalised device format of each external pixel
type back to that pixel type (type-level round trip). -/
theorem pixel_format_mapping_table :
    (imageToGpgpuPixel ImgPixelType.RgbaU8 = GpgpuPixelFormat.Rgba8Uint ∧
      imageToGpgpuNormPixel ImgPixelType.RgbaU8
        = GpgpuPixelFormat.Rgba8UintNorm) ∧
    (imageToGpgpuPixel ImgPixelType.RgbaI8 = GpgpuPixelFormat.Rgba8Sint ∧
      imageToGpgpuNormPixel ImgPixelType.RgbaI8
        = GpgpuPixelFormat.Rgba8SintNorm) ∧
    (imageToGpgpuPixel ImgPixelType.LumaU8 = GpgpuPixelFormat.Luma8 ∧
      imageToGpgpuNormPixel ImgPixelType.LumaU8
        = GpgpuPixelFormat.Luma8Norm) ∧
    (∀ p : ImgPixelType,
      gpgpuToImagePixel (imageToGpgpuPixel p) = p ∧
      gpgpuToImagePixel (imageToGpgpuNormPixel p) = p) := by
  refine ⟨⟨rfl, rfl⟩, ⟨rfl, rfl⟩, ⟨rfl, rfl⟩, ?_⟩
  intro p
  cases p <;> exact ⟨rfl, rfl⟩

/-- C7: the image usage type admits no value other than `WriteOnly`, and
appending an image binding to a Descriptor Set always appends a binding of
kind `Image WriteOnly` — no operation can produce an image binding with
read-only or read-write access in the base configuration. -/
theorem image_usage_write_only :
    (∀ u : ImageUsage, u = ImageUsage.WriteOnly) ∧
    (∀ ds : DescriptorSet,
      (bind_image ds).binds.map BindEntry.kind
        = ds.binds.map BindEntry.kind
            ++ [BindingKind.Image ImageUsage.WriteOnly]) := by
  constructor
  · intro u
    cases u
    rfl
  · intro ds
    simp [bind_image, DescriptorSet.addBinding]

/-- C8: a deferred (async) read or write that is never polled remains
pending indefinitely: in every host-event trace containing no invocation of
the Device Context's poll entry point, the operation's completion callback
never fires and the state stays `Pending`. -/
theorem unpolled_deferred_stays_pending (events : List HostEvent)
    (h : ∀ e ∈ events, e ≠ HostEvent.Poll) :
    runDeferred events = DeferredState.Pending := by
  unfold runDeferred
  induction events with
  | nil => rfl
  | cons e t ih =>
    have he : e ≠ HostEvent.Poll := h e (by simp)
    have hstep : stepDeferred DeferredState.Pending e
        = DeferredState.Pending := by
      cases e
      · exact absurd rfl he
      · rfl
    rw [List.foldl_cons, hstep]
    exact ih (fun e2 he2 => h e2 (by simp [he2]))

/-- C8 witness: two non-poll host events leave the operation pending. -/
theorem unpolled_deferred_stays_pending_witness :
    runDeferred [HostEvent.Other, HostEvent.Other]
      = DeferredState.Pending :=
  unpolled_deferred_stays_pending [HostEvent.Other, HostEvent.Other]
    (by decide)

/-- C9: for every input byte vector, `bytes_to_primitive_vec` (a total
function — no error is produced) returns exactly
`⌊bytes.len / subpixel_size⌋` subpixels that reinterpret the leading bytes
in order; remainder bytes are silently discarded. -/
theorem bytes_to_primitive_vec_trunc (s : Nat) (bytes : List Nat) :
    (bytes_to_primitive_vec s bytes).length = bytes.length / s ∧
    (bytes_to_primitive_vec s bytes).flatten
      = bytes.take (s * (bytes.length / s)) :=
  ⟨btpv_length s bytes, btpv_flatten s bytes⟩

/-- C10: `read_to_image_buffer` returns the error "Buffer is too small!"
exactly when the subpixel container reconstructed from the read-back bytes
holds fewer subpixels than `width * height * channels`; a container with at
least that many subpixels (surplus included) is accepted and yields a
successful ImageBuffer. -/
theorem read_to_image_buffer_error_iff (img : GpuImageState) :
    (img.read_to_image_buffer = Except.error "Buffer is too small!" ↔
      (bytes_to_primitive_vec
          (gpgpuToImagePixel img.pixelFormat).subpixelSize img.read).length
        < img.width * img.height
            * (gpgpuToImagePixel img.pixelFormat).channels) ∧
    (img.width * img.height * (gpgpuToImagePixel img.pixelFormat).channels
        ≤ (bytes_to_primitive_vec
            (gpgpuToImagePixel img.pixelFormat).subpixelSize
            img.read).length →
      img.read_to_image_buffer
        = Except.ok ⟨img.width, img.height,
            bytes_to_primitive_vec
              (gpgpuToImagePixel img.pixelFormat).subpixelSize img.read⟩) := by
  have hdef : img.read_to_image_buffer
      = reconstruct_image_buffer img.width img.height img.pixelFormat
          img.read := rfl
  by_cases hc : img.width * img.height
      * (gpgpuToImagePixel img.pixelFormat).channels
      ≤ (bytes_to_primitive_vec
          (gpgpuToImagePixel img.pixelFormat).subpixelSize img.read).length
  · rw [hdef, reconstruct_ok img.width img.height img.pixelFormat
      img.read hc]
    refine ⟨⟨fun hcon => absurd hcon (by simp), fun hlt => ?_⟩, fun _ => rfl⟩
    exact absurd hc (Nat.not_le_of_lt hlt)
  · have hlt := Nat.lt_of_not_le hc
    rw [hdef, reconstruct_error img.width img.height img.pixelFormat
      img.read hlt]
    exact ⟨iff_of_true rfl hlt, fun hge => absurd hge hc⟩

/-- C10 witness: a well-formed 1×1 Luma8 image reads back successfully. -/
theorem read_to_image_buffer_error_iff_witness :
    (GpuImageState.new 1 1 GpgpuPixelFormat.Luma8).read_to_image_buffer
      = Except.ok ⟨1, 1, [[0]]⟩ := by
  have h := (read_to_image_buffer_error_iff
    (GpuImageState.new 1 1 GpgpuPixelFormat.Luma8)).2 (by decide)
  rw [h]
  rfl

end Gpgpu
